import Mathlib

/-!
# Verification of the `monoio-ws` frame codec and handshake

A shallow embedding of `src/frame.rs` and `src/handshake.rs` of the
`monoio-ws` WebSocket client, together with proofs about the embedded
operations.

Buffers are modelled as `List Nat`, each element a byte value.  Raw-pointer
writes (`dst.add(i).write v`) become `List.set i v`, raw-pointer reads
(`dst.add(i).read()`) become `List.getD i 0`; a separate bounds-checked
variant (`Option`-valued) models the unsafe pointer accesses of
`encode_control_slice` precisely, where an out-of-bounds access is
undefined behaviour (`none`).  Machine-integer truncation (`as u8`,
`as u16`, `as u64`) is explicit `% 2 ^ w`; `usize` subtraction wraps
modulo `2 ^ 64`.
-/

namespace MonoioWs

/-- Modelled from the spec: the `Opcode` enumeration (`src/opcode.rs` is not
among the provided sources); wire values per spec section 3:
Continuation=0x0, Text=0x1, Binary=0x2, Close=0x8, Ping=0x9, Pong=0xA. -/
inductive Opcode where
  | continuation
  | text
  | binary
  | close
  | ping
  | pong
deriving DecidableEq, Repr

/-- The numeric wire value of an opcode (`opcode as u8` in the source). -/
def Opcode.toNat : Opcode → Nat
  | .continuation => 0
  | .text => 1
  | .binary => 2
  | .close => 8
  | .ping => 9
  | .pong => 10

/-- `Frame` from `src/frame.rs`: `{ fin: bool, opcode: Opcode }`. -/
structure Frame where
  fin : Bool
  opcode : Opcode
deriving DecidableEq, Repr

/-- `CONTROL_HEADER_LEN` from `src/frame.rs`: 2 byte header + 4 byte
masking key. -/
def CONTROL_HEADER_LEN : Nat := 6

/-- `MASK_BIT` from `src/frame.rs`. -/
def MASK_BIT : Nat := 0x80

/-- Wrapping `usize` subtraction (Rust release-mode semantics of `a - b`
on `usize`); both arguments are assumed `< 2 ^ 64`. -/
def usizeSub (a b : Nat) : Nat := (a + (2 ^ 64 - b)) % 2 ^ 64

/-- One iteration of the reverse masking loop of `mask_scalar`
(`src/frame.rs` lines 159-167): `dst[i + HEADER_LEN] = dst[i] ^ mask[i & 3]`. -/
def maskStep (H : Nat) (mask buf : List Nat) (i : Nat) : List Nat :=
  buf.set (i + H) (Nat.xor (buf.getD i 0) (mask.getD (i % 4) 0))

/-- The loop `for i in (lo..lo+k).rev() { dst[i+H] = dst[i] ^ mask[i & 3] }`,
processing indices downwards from `lo + k - 1` to `lo`.  With `lo = 0` this
is the body of `mask_scalar`; with `lo = chunks * 16` it is the scalar tail
loop of `mask_simd_x86`. -/
def maskRevLoop (H : Nat) (mask : List Nat) : List Nat → Nat → Nat → List Nat
  | buf, _, 0 => buf
  | buf, lo, k + 1 => maskRevLoop H mask (maskStep H mask buf (lo + k)) lo k

/-- `mask_scalar::<HEADER_LEN>(dst, len, mask)` from `src/frame.rs`:
one byte per step, indices processed in reverse. -/
def mask_scalar (H : Nat) (buf : List Nat) (len : Nat) (mask : List Nat) : List Nat :=
  maskRevLoop H mask buf 0 len

/-- The sixteen bytes produced by one SSSE3 chunk of `mask_simd_x86`:
the 16 source bytes at `i .. i+16` XORed with the 4-byte mask splatted
to 16 bytes (`_mm_set1_epi32`), all read before any store. -/
def chunkVals (mask buf : List Nat) (i : Nat) : List Nat :=
  (List.range 16).map fun k => Nat.xor (buf.getD (i + k) 0) (mask.getD (k % 4) 0)

/-- Store a list of byte values at consecutive positions starting at `j`
(`_mm_storeu_si128`). -/
def writeSeq : List Nat → Nat → List Nat → List Nat
  | buf, _, [] => buf
  | buf, j, v :: vs => writeSeq (buf.set j v) (j + 1) vs

/-- The SIMD chunk loop of `mask_simd_x86` (`src/frame.rs` lines 187-195):
`for i in (0..chunks).rev()`, each chunk loading 16 bytes at `i * 16`,
XORing with the splatted mask and storing at `i * 16 + HEADER_LEN`. -/
def simdChunkLoop (H : Nat) (mask : List Nat) : List Nat → Nat → List Nat
  | buf, 0 => buf
  | buf, c + 1 =>
    simdChunkLoop H mask (writeSeq buf (c * 16 + H) (chunkVals mask buf (c * 16))) c

/-- `mask_simd_x86::<HEADER_LEN>(dst, len, mask)` from `src/frame.rs`:
remaining tail bytes (`chunks*16 .. len`) handled individually in reverse
first, then full 16-byte chunks in reverse. -/
def mask_simd_x86 (H : Nat) (buf : List Nat) (len : Nat) (mask : List Nat) : List Nat :=
  let chunks := len / 16
  simdChunkLoop H mask (maskRevLoop H mask buf (chunks * 16) (len - chunks * 16)) chunks

/-- `mask_data::<HEADER_LEN>(dst, len, mask)` from `src/frame.rs`:
dispatches to the SIMD back-end when `len >= 16` and the `ssse3` CPU
feature is detected, and to the scalar back-end otherwise. -/
def mask_data (ssse3 : Bool) (H : Nat) (buf : List Nat) (len : Nat) (mask : List Nat) :
    List Nat :=
  if 16 ≤ len ∧ ssse3 = true then mask_simd_x86 H buf len mask
  else mask_scalar H buf len mask

/-- `copy_nonoverlapping(mask.as_ptr(), dst.add(j), 4)`: write the four
mask bytes at positions `j .. j+4`. -/
def copyMask4 (buf : List Nat) (j : Nat) (mask : List Nat) : List Nat :=
  ((((buf.set j (mask.getD 0 0)).set (j + 1) (mask.getD 1 0)).set
    (j + 2) (mask.getD 2 0)).set (j + 3) (mask.getD 3 0))

/-- The first header byte `((fin as u8) << 7) | opcode as u8`. -/
def headerByte0 (f : Frame) : Nat :=
  Nat.lor (Nat.shiftLeft (if f.fin then 1 else 0) 7) f.opcode.toNat

/-- `Frame::encode_control_slice(data, mask)` from `src/frame.rs`
(lines 36-59), with the masking back-end selected by `ssse3`:
`data_len = data.len() - 6` (wrapping `usize` subtraction), mask the
payload while shifting it right by 6, then write header byte 0, the
length byte `MASK_BIT | data_len as u8`, and the mask at bytes 2..6. -/
def Frame.encode_control_slice (f : Frame) (ssse3 : Bool) (data mask : List Nat) :
    List Nat :=
  let data_len := usizeSub data.length CONTROL_HEADER_LEN
  let b := mask_data ssse3 CONTROL_HEADER_LEN data data_len mask
  let b := b.set 0 (headerByte0 f)
  let b := b.set 1 (Nat.lor MASK_BIT (data_len % 256))
  copyMask4 b 2 mask

/-- The header length chosen by `Frame::encode_vec`:
`match data_len { ..126 => 6, 126..65536 => 8, _ => 14 }`. -/
def headerLen (data_len : Nat) : Nat :=
  if data_len < 126 then 6 else if data_len < 65536 then 8 else 14

/-- Byte `k` of `(n as u64).to_be_bytes()`. -/
def u64BeByte (n k : Nat) : Nat := n % 2 ^ 64 / 2 ^ (8 * (7 - k)) % 256

/-- `Frame::encode_vec(data, mask)` from `src/frame.rs` (lines 62-137),
with the masking back-end selected by `ssse3`: grow the buffer by the
header length (`Vec::resize` appends zeros), mask the payload while
shifting it right by the header length, then write the header:
7-bit length for `len < 126`, marker 126 + big-endian `u16` for
`len < 65536`, marker 127 + big-endian `u64` otherwise, followed by the
4-byte mask. -/
def Frame.encode_vec (f : Frame) (ssse3 : Bool) (data mask : List Nat) : List Nat :=
  let data_len := data.length
  let header_len := headerLen data_len
  let b := data ++ List.replicate header_len 0
  if header_len = 6 then
    let b := mask_data ssse3 6 b data_len mask
    let b := b.set 0 (headerByte0 f)
    let b := b.set 1 (Nat.lor MASK_BIT (data_len % 256))
    copyMask4 b 2 mask
  else if header_len = 8 then
    let b := mask_data ssse3 8 b data_len mask
    let b := b.set 0 (headerByte0 f)
    let b := b.set 1 (Nat.lor MASK_BIT 126)
    let b := b.set 2 (data_len % 2 ^ 16 / 256)
    let b := b.set 3 (data_len % 2 ^ 16 % 256)
    copyMask4 b 4 mask
  else
    let b := mask_data ssse3 14 b data_len mask
    let b := b.set 0 (headerByte0 f)
    let b := b.set 1 (Nat.lor MASK_BIT 127)
    let b := writeSeq b 2 ((List.range 8).map (u64BeByte data_len))
    copyMask4 b 10 mask

/-- The value a masking pass writes at destination position `p` (reading the
source byte `p - H` of the pre-call buffer), or `0` past the end of the
buffer. -/
def maskedVal (H : Nat) (mask buf : List Nat) (p : Nat) : Nat :=
  if p < buf.length then Nat.xor (buf.getD (p - H) 0) (mask.getD ((p - H) % 4) 0) else 0

/-- A bounds-checked byte read (`dst.add(i).read()` of the unsafe
implementation); reading out of bounds is undefined behaviour, modelled as
`none`. -/
def readB (buf : List Nat) (i : Nat) : Option Nat := buf[i]?

/-- A bounds-checked byte write (`dst.add(i).write v`); writing out of
bounds is undefined behaviour, modelled as `none`. -/
def writeB (buf : List Nat) (i v : Nat) : Option (List Nat) :=
  if i < buf.length then some (buf.set i v) else none

/-- Bounds-checked model of the reverse masking loop of `mask_scalar`:
each iteration reads `dst[i]` and `mask[i & 3]` and writes
`dst[i + HEADER_LEN]`, failing on the first out-of-bounds access. -/
def maskRevLoopB (H : Nat) (mask : List Nat) : List Nat → Nat → Nat → Option (List Nat)
  | buf, _, 0 => some buf
  | buf, lo, k + 1 =>
    (readB buf (lo + k)).bind fun v =>
      (readB mask ((lo + k) % 4)).bind fun m =>
        (writeB buf (lo + k + H) (Nat.xor v m)).bind fun buf2 =>
          maskRevLoopB H mask buf2 lo k

/-- Bounds-checked model of `Frame::encode_control_slice` with the scalar
masking back-end: the same reads and writes as the unsafe implementation,
with `usize` subtraction wrapping and every pointer access checked.
A `none` result means the unsafe code performed an out-of-bounds access. -/
def Frame.encode_control_sliceB (f : Frame) (buf mask : List Nat) : Option (List Nat) :=
  let data_len := usizeSub buf.length CONTROL_HEADER_LEN
  (maskRevLoopB CONTROL_HEADER_LEN mask buf 0 data_len).bind fun b1 =>
    (writeB b1 0 (headerByte0 f)).bind fun b2 =>
      (writeB b2 1 (Nat.lor MASK_BIT (data_len % 256))).bind fun b3 =>
        (readB mask 0).bind fun a0 =>
          (readB mask 1).bind fun a1 =>
            (readB mask 2).bind fun a2 =>
              (readB mask 3).bind fun a3 =>
                (writeB b3 2 a0).bind fun b4 =>
                  (writeB b4 3 a1).bind fun b5 =>
                    (writeB b5 4 a2).bind fun b6 =>
                      writeB b6 5 a3

/-- Modelled from the spec: the RFC 6455 interpretation of the 7-bit length
field of the second header byte (spec section 4.C): a field value below 126
is the payload length itself; 126 and 127 are markers for the extended
length forms, not lengths.  The frame decoder of this repository lives in
`src/client.rs`, which is not among the provided sources. -/
def len7Field (b : Nat) : Option Nat :=
  if Nat.land b 127 < 126 then some (Nat.land b 127) else none

/-- The 126-byte Lorem-ipsum payload of scenario S3 (the `"126"` test case
of `src/frame.rs`). -/
def loremPayload : List Nat := [
  76, 111, 114, 101, 109, 32, 105, 112, 115, 117, 109, 32, 100, 111, 108, 111, 114, 32,
  115, 105, 116, 32, 97, 109, 101, 116, 44, 32, 99, 111, 110, 115, 101, 99, 116, 101, 116,
  117, 114, 32, 97, 100, 105, 112, 105, 115, 99, 105, 110, 103, 32, 101, 108, 105, 116,
  44, 32, 115, 101, 100, 32, 100, 111, 32, 101, 105, 117, 115, 109, 111, 100, 32, 116,
  101, 109, 112, 111, 114, 32, 105, 110, 99, 105, 100, 105, 100, 117, 110, 116, 32, 117,
  116, 32, 108, 97, 98, 111, 114, 101, 32, 101, 116, 32, 100, 111, 108, 111, 114, 101,
  32, 109, 97, 103, 110, 97, 32, 97, 108, 105, 113, 117, 97, 46, 32, 85, 116]

/-- The components of a parsed `http::Uri` used by `http_request`
(the `http` crate is an external collaborator): `uri.host()`,
`uri.port_u16()` and `uri.path_and_query()`. -/
structure Uri where
  host : Option String
  port : Option Nat
  path_and_query : Option String

/-- `http_request(uri, key)` from `src/handshake.rs` (lines 65-84): the
fixed-shape HTTP/1.1 Upgrade request; the port is appended to the `Host`
field only when `uri.port_u16()` is present. -/
def http_request (uri : Uri) (key : String) : String :=
  let host :=
    match uri.port with
    | some port => (uri.host.getD "") ++ ":" ++ toString port
    | none => uri.host.getD ""
  "GET " ++ (uri.path_and_query.getD "") ++ " HTTP/1.1\r\nHost: " ++ host ++
    "\r\nUpgrade: websocket\r\nConnection: Upgrade\r\nSec-WebSocket-Key: " ++ key ++
    "\r\nSec-WebSocket-Version: 13\r\n\r\n"

/-- Big-endian bytes (most significant first) of a `w`-byte value. -/
def beBytes (w n : Nat) : List Nat :=
  (List.range w).map fun k => n / 2 ^ (8 * (w - 1 - k)) % 256

/-- SHA-1 message padding (FIPS 180; behaviour of the external `sha1`
crate): append `0x80`, zero bytes up to 56 mod 64, then the 8-byte
big-endian bit length. -/
def sha1Pad (msg : List Nat) : List Nat :=
  msg ++ [128] ++ List.replicate ((64 + 56 - (msg.length + 1) % 64) % 64) 0
    ++ beBytes 8 (msg.length * 8)

/-- 32-bit left rotation. -/
def rotl32 (n x : Nat) : Nat :=
  Nat.lor (Nat.shiftLeft x n) (Nat.shiftRight x (32 - n)) % 2 ^ 32

/-- The SHA-1 round function. -/
def sha1F (t b c d : Nat) : Nat :=
  if t < 20 then Nat.lor (Nat.land b c) (Nat.land (Nat.xor b 4294967295) d)
  else if t < 40 then Nat.xor (Nat.xor b c) d
  else if t < 60 then Nat.lor (Nat.lor (Nat.land b c) (Nat.land b d)) (Nat.land c d)
  else Nat.xor (Nat.xor b c) d

/-- The SHA-1 round constants. -/
def sha1K (t : Nat) : Nat :=
  if t < 20 then 1518500249 else if t < 40 then 1859775393
  else if t < 60 then 2400959708 else 3395469782

/-- SHA-1 message-schedule extension: append
`rotl1 (w[t-3] XOR w[t-8] XOR w[t-14] XOR w[t-16])` `k` times. -/
def sha1W (ws : List Nat) : Nat → List Nat
  | 0 => ws
  | k + 1 =>
    sha1W (ws ++ [rotl32 1 (Nat.xor
      (Nat.xor (ws.getD (ws.length - 3) 0) (ws.getD (ws.length - 8) 0))
      (Nat.xor (ws.getD (ws.length - 14) 0) (ws.getD (ws.length - 16) 0)))]) k

/-- One SHA-1 compression round on the state `(a, b, c, d, e)`. -/
def sha1Round (w : List Nat) (st : Nat × Nat × Nat × Nat × Nat) (t : Nat) :
    Nat × Nat × Nat × Nat × Nat :=
  let tmp := (rotl32 5 st.1 + sha1F t st.2.1 st.2.2.1 st.2.2.2.1 + st.2.2.2.2
    + sha1K t + w.getD t 0) % 2 ^ 32
  (tmp, st.1, rotl32 30 st.2.1, st.2.2.1, st.2.2.2.1)

/-- SHA-1 compression of one 64-byte block. -/
def sha1Block (h : Nat × Nat × Nat × Nat × Nat) (block : List Nat) :
    Nat × Nat × Nat × Nat × Nat :=
  let ws0 := (List.range 16).map fun i =>
    ((block.getD (4 * i) 0 * 256 + block.getD (4 * i + 1) 0) * 256
      + block.getD (4 * i + 2) 0) * 256 + block.getD (4 * i + 3) 0
  let w := sha1W ws0 64
  let st := (List.range 80).foldl (sha1Round w) h
  ((h.1 + st.1) % 2 ^ 32, (h.2.1 + st.2.1) % 2 ^ 32, (h.2.2.1 + st.2.2.1) % 2 ^ 32,
    (h.2.2.2.1 + st.2.2.2.1) % 2 ^ 32, (h.2.2.2.2 + st.2.2.2.2) % 2 ^ 32)

/-- SHA-1 of a byte sequence (20-byte digest). -/
def sha1 (msg : List Nat) : List Nat :=
  let padded := sha1Pad msg
  let h := (List.range (padded.length / 64)).foldl
    (fun h i => sha1Block h ((padded.drop (64 * i)).take 64))
    (1732584193, 4023233417, 2562383102, 271733878, 3285377520)
  beBytes 4 h.1 ++ beBytes 4 h.2.1 ++ beBytes 4 h.2.2.1 ++ beBytes 4 h.2.2.2.1
    ++ beBytes 4 h.2.2.2.2

/-- The standard base64 alphabet character for a 6-bit value. -/
def b64Char (n : Nat) : Char :=
  "ABCDEFGHIJKLMNOPQRSTUVWXYZabcdefghijklmnopqrstuvwxyz0123456789+/".toList.getD n 'A'

/-- Standard base64 encoding in 3-byte groups with `=` padding
(behaviour of the external `base64` crate's `BASE64_STANDARD`). -/
def b64Chunks : List Nat → List Char
  | [] => []
  | [b0] => [b64Char (b0 / 4), b64Char (b0 % 4 * 16), '=', '=']
  | [b0, b1] =>
    [b64Char (b0 / 4), b64Char (b0 % 4 * 16 + b1 / 16), b64Char (b1 % 16 * 4), '=']
  | b0 :: b1 :: b2 :: rest =>
    b64Char (b0 / 4) :: b64Char (b0 % 4 * 16 + b1 / 16) ::
      b64Char (b1 % 16 * 4 + b2 / 64) :: b64Char (b2 % 64) :: b64Chunks rest

def base64Encode (bytes : List Nat) : String := String.mk (b64Chunks bytes)

/-- The UTF-8 bytes of the header strings involved (all ASCII). -/
def strBytes (s : String) : List Nat := s.toList.map Char.toNat

/-- The WebSocket GUID appended to the key (`src/handshake.rs` line 52). -/
def wsGuid : String := "258EAFA5-E914-47DA-95CA-C5AB0DC85B11"

/-- The `expected_accept` computation of `handshake` (lines 50-54):
`base64(SHA1(key || GUID))`. -/
def expected_accept (key : String) : String :=
  base64Encode (sha1 (strBytes (key ++ wsGuid)))

/-- Substring containment on character lists (`str::contains`). -/
def listContains : List Char → List Char → Bool
  | hay, needle =>
    needle.isPrefixOf hay ||
      match hay with
      | [] => false
      | _ :: t => listContains t needle

def strContains (hay needle : String) : Bool := listContains hay.toList needle.toList

/-- ASCII lowercasing of one character (model of `str::to_lowercase`,
which agrees with it on the ASCII header text involved). -/
def asciiLower (c : Char) : Char :=
  if 65 ≤ c.toNat ∧ c.toNat ≤ 90 then Char.ofNat (c.toNat + 32) else c

def strLower (s : String) : String := String.mk (s.toList.map asciiLower)

/-- The three outcomes of the response-verification part of `handshake`
(`src/handshake.rs` lines 44-62). -/
inductive HandshakeCheck where
  | ok
  | invalidHandshakeResponse (raw : String)
  | invalidWebSocketAcceptHeader
deriving DecidableEq, Repr

/-- `response.starts_with("HTTP/1.1 101")` (line 45). -/
def statusOk (response : String) : Bool :=
  "HTTP/1.1 101".toList.isPrefixOf response.toList

/-- The accept-header test of `handshake` (lines 55-58): case-insensitive
containment of `Sec-WebSocket-Accept: <expected>` in the response. -/
def acceptOk (response key : String) : Bool :=
  strContains (strLower response)
    (strLower ("Sec-WebSocket-Accept: " ++ expected_accept key))

/-- The response verification of `handshake` (`src/handshake.rs` lines
44-62): reject a non-101 status line first, then a missing accept header. -/
def handshake_verify (response key : String) : HandshakeCheck :=
  if statusOk response = false then .invalidHandshakeResponse response
  else if acceptOk response key = false then .invalidWebSocketAcceptHeader
  else .ok

/-! ## Helper lemmas: pointwise characterization of the masking loops -/

lemma getD_set (l : List Nat) (i a p : Nat) :
    (l.set i a).getD p 0 = if p = i ∧ i < l.length then a else l.getD p 0 := by
  rw [List.getD_eq_getElem?_getD, List.getElem?_set, List.getD_eq_getElem?_getD]
  by_cases h1 : i = p
  · subst h1
    by_cases h2 : i < l.length
    · simp [h2]
    · rw [List.getElem?_eq_none (by omega)]
      simp [h2]
  · rw [if_neg h1, if_neg (by tauto)]

lemma length_maskStep (H : Nat) (mask buf : List Nat) (i : Nat) :
    (maskStep H mask buf i).length = buf.length := by
  simp [maskStep]

lemma length_maskRevLoop (H : Nat) (mask : List Nat) (k : Nat) :
    ∀ (buf : List Nat) (lo : Nat), (maskRevLoop H mask buf lo k).length = buf.length := by
  induction k with
  | zero => intro buf lo; rfl
  | succ k ih =>
    intro buf lo
    simp only [maskRevLoop]
    rw [ih, length_maskStep]

lemma maskRevLoop_getD (H : Nat) (mask : List Nat) (k : Nat) :
    ∀ (buf : List Nat) (lo p : Nat),
      (maskRevLoop H mask buf lo k).getD p 0 =
        if lo + H ≤ p ∧ p < lo + k + H then maskedVal H mask buf p
        else buf.getD p 0 := by
  induction k with
  | zero =>
    intro buf lo p
    simp only [maskRevLoop]
    rw [if_neg (by omega)]
  | succ k ih =>
    intro buf lo p
    simp only [maskRevLoop]
    rw [ih]
    by_cases h1 : lo + H ≤ p ∧ p < lo + k + H
    · rw [if_pos h1, if_pos (by omega)]
      simp only [maskStep, maskedVal, List.length_set]
      by_cases h2 : p < buf.length
      · rw [if_pos h2, if_pos h2, getD_set, if_neg (by omega)]
      · rw [if_neg h2, if_neg h2]
    · rw [if_neg h1]
      simp only [maskStep]
      rw [getD_set]
      by_cases h3 : lo + H ≤ p ∧ p < lo + (k + 1) + H
      · have hp : p = lo + k + H := by omega
        rw [if_pos h3]
        simp only [maskedVal]
        by_cases h2 : p < buf.length
        · rw [if_pos (by omega), if_pos h2]
          have e1 : p - H = lo + k := by omega
          rw [e1]
        · rw [if_neg (by omega), if_neg h2, List.getD_eq_default _ _ (by omega)]
      · rw [if_neg h3, if_neg (by omega)]

lemma mask_scalar_getD (H : Nat) (buf : List Nat) (len : Nat) (mask : List Nat) (p : Nat) :
    (mask_scalar H buf len mask).getD p 0 =
      if H ≤ p ∧ p < len + H then maskedVal H mask buf p else buf.getD p 0 := by
  rw [mask_scalar, maskRevLoop_getD]
  by_cases h : H ≤ p ∧ p < len + H
  · rw [if_pos (by omega), if_pos h]
  · rw [if_neg (by omega), if_neg h]

lemma length_mask_scalar (H : Nat) (buf : List Nat) (len : Nat) (mask : List Nat) :
    (mask_scalar H buf len mask).length = buf.length :=
  length_maskRevLoop H mask len buf 0

lemma length_writeSeq (vs : List Nat) :
    ∀ (buf : List Nat) (j : Nat), (writeSeq buf j vs).length = buf.length := by
  induction vs with
  | nil => intro buf j; rfl
  | cons v vs ih =>
    intro buf j
    simp only [writeSeq]
    rw [ih, List.length_set]

lemma writeSeq_getD (vs : List Nat) :
    ∀ (buf : List Nat) (j p : Nat),
      (writeSeq buf j vs).getD p 0 =
        if j ≤ p ∧ p < j + vs.length ∧ p < buf.length then vs.getD (p - j) 0
        else buf.getD p 0 := by
  induction vs with
  | nil =>
    intro buf j p
    simp only [writeSeq, List.length_nil]
    rw [if_neg (by omega)]
  | cons v vs ih =>
    intro buf j p
    simp only [writeSeq, List.length_cons]
    rw [ih, List.length_set]
    by_cases h1 : j + 1 ≤ p ∧ p < j + 1 + vs.length ∧ p < buf.length
    · rw [if_pos h1, if_pos (by omega)]
      have hs : p - j = p - (j + 1) + 1 := by omega
      rw [hs, List.getD_cons_succ]
    · rw [if_neg h1, getD_set]
      by_cases h2 : j ≤ p ∧ p < j + (vs.length + 1) ∧ p < buf.length
      · have hp : p = j := by omega
        subst hp
        rw [if_pos (by omega), if_pos h2, Nat.sub_self, List.getD_cons_zero]
      · rw [if_neg h2, if_neg (by omega)]

lemma range_map_getD (f : Nat → Nat) (n q : Nat) :
    ((List.range n).map f).getD q 0 = if q < n then f q else 0 := by
  rw [List.getD_eq_getElem?_getD, List.getElem?_map]
  by_cases h : q < n
  · rw [List.getElem?_range h]
    simp [h]
  · rw [List.getElem?_eq_none (by simp only [List.length_range]; omega)]
    simp [h]

lemma length_simdChunkLoop (H : Nat) (mask : List Nat) (c : Nat) :
    ∀ (buf : List Nat), (simdChunkLoop H mask buf c).length = buf.length := by
  induction c with
  | zero => intro buf; rfl
  | succ c ih =>
    intro buf
    simp only [simdChunkLoop]
    rw [ih, length_writeSeq]

lemma length_chunkVals (mask buf : List Nat) (i : Nat) :
    (chunkVals mask buf i).length = 16 := by
  simp [chunkVals]

lemma simdChunkLoop_getD (H : Nat) (mask : List Nat) (c : Nat) :
    ∀ (buf : List Nat) (p : Nat),
      (simdChunkLoop H mask buf c).getD p 0 =
        if H ≤ p ∧ p < c * 16 + H then maskedVal H mask buf p
        else buf.getD p 0 := by
  induction c with
  | zero =>
    intro buf p
    simp only [simdChunkLoop]
    rw [if_neg (by omega)]
  | succ c ih =>
    intro buf p
    simp only [simdChunkLoop]
    rw [ih]
    by_cases h1 : H ≤ p ∧ p < c * 16 + H
    · rw [if_pos h1, if_pos (by omega)]
      simp only [maskedVal, length_writeSeq]
      by_cases h2 : p < buf.length
      · rw [if_pos h2, if_pos h2, writeSeq_getD, if_neg (by omega)]
      · rw [if_neg h2, if_neg h2]
    · rw [if_neg h1, writeSeq_getD, length_chunkVals]
      by_cases h3 : H ≤ p ∧ p < (c + 1) * 16 + H
      · have hw : c * 16 + H ≤ p ∧ p < c * 16 + H + 16 := by omega
        by_cases h2 : p < buf.length
        · rw [if_pos ⟨hw.1, hw.2, h2⟩, if_pos h3]
          simp only [chunkVals]
          rw [range_map_getD, if_pos (by omega)]
          simp only [maskedVal]
          rw [if_pos h2]
          have e1 : c * 16 + (p - (c * 16 + H)) = p - H := by omega
          have e2 : p - H = p - (c * 16 + H) + 4 * c * 4 := by omega
          rw [e1, e2, Nat.add_mul_mod_self_right]
        · rw [if_neg (by omega), if_pos h3]
          simp only [maskedVal]
          rw [if_neg h2, List.getD_eq_default _ _ (by omega)]
      · rw [if_neg (by omega), if_neg h3]

/-- Scalar/SIMD equivalence: the SSSE3 back-end and the scalar back-end
produce identical buffers for every input buffer, length and mask. -/
lemma mask_simd_eq_mask_scalar (H : Nat) (buf : List Nat) (len : Nat) (mask : List Nat) :
    mask_simd_x86 H buf len mask = mask_scalar H buf len mask := by
  have hc : len / 16 * 16 ≤ len := Nat.div_mul_le_self len 16
  apply List.ext_getElem
  · simp only [mask_simd_x86, mask_scalar]
    rw [length_simdChunkLoop, length_maskRevLoop, length_maskRevLoop]
  · intro p h1 h2
    rw [← List.getD_eq_getElem _ 0 h1, ← List.getD_eq_getElem _ 0 h2]
    rw [mask_scalar_getD]
    simp only [mask_simd_x86]
    rw [simdChunkLoop_getD]
    by_cases ha : H ≤ p ∧ p < len / 16 * 16 + H
    · rw [if_pos ha, if_pos (by omega)]
      simp only [maskedVal]
      rw [length_maskRevLoop]
      by_cases hb : p < buf.length
      · rw [if_pos hb, if_pos hb, maskRevLoop_getD, if_neg (by omega)]
      · rw [if_neg hb, if_neg hb]
    · rw [if_neg ha, maskRevLoop_getD]
      by_cases hb : len / 16 * 16 + H ≤ p ∧ p < len / 16 * 16 + (len - len / 16 * 16) + H
      · rw [if_pos hb, if_pos (by omega)]
      · rw [if_neg hb, if_neg (by omega)]

/-- The dispatching `mask_data` always computes the scalar result,
whichever back-end is selected. -/
lemma mask_data_eq_mask_scalar (ssse3 : Bool) (H : Nat) (buf : List Nat) (len : Nat)
    (mask : List Nat) :
    mask_data ssse3 H buf len mask = mask_scalar H buf len mask := by
  rw [mask_data]
  by_cases h : 16 ≤ len ∧ ssse3 = true
  · rw [if_pos h, mask_simd_eq_mask_scalar]
  · rw [if_neg h]

lemma length_mask_data (ssse3 : Bool) (H : Nat) (buf : List Nat) (len : Nat)
    (mask : List Nat) :
    (mask_data ssse3 H buf len mask).length = buf.length := by
  rw [mask_data_eq_mask_scalar, length_mask_scalar]

lemma mask_data_getD (ssse3 : Bool) (H : Nat) (buf : List Nat) (len : Nat)
    (mask : List Nat) (p : Nat) :
    (mask_data ssse3 H buf len mask).getD p 0 =
      if H ≤ p ∧ p < len + H then maskedVal H mask buf p else buf.getD p 0 := by
  rw [mask_data_eq_mask_scalar, mask_scalar_getD]

lemma length_copyMask4 (buf : List Nat) (j : Nat) (mask : List Nat) :
    (copyMask4 buf j mask).length = buf.length := by
  simp [copyMask4]

lemma copyMask4_getD (buf : List Nat) (j : Nat) (mask : List Nat) (p : Nat) :
    (copyMask4 buf j mask).getD p 0 =
      if j ≤ p ∧ p < j + 4 ∧ p < buf.length then mask.getD (p - j) 0
      else buf.getD p 0 := by
  simp only [copyMask4]
  rw [getD_set, getD_set, getD_set, getD_set]
  simp only [List.length_set]
  by_cases h : j ≤ p ∧ p < j + 4 ∧ p < buf.length
  · rw [if_pos h]
    have h4 : p = j ∨ p = j + 1 ∨ p = j + 2 ∨ p = j + 3 := by omega
    rcases h4 with h4 | h4 | h4 | h4
    · rw [if_neg (by omega), if_neg (by omega), if_neg (by omega), if_pos (by omega)]
      have e : p - j = 0 := by omega
      rw [e]
    · rw [if_neg (by omega), if_neg (by omega), if_pos (by omega)]
      have e : p - j = 1 := by omega
      rw [e]
    · rw [if_neg (by omega), if_pos (by omega)]
      have e : p - j = 2 := by omega
      rw [e]
    · rw [if_pos (by omega)]
      have e : p - j = 3 := by omega
      rw [e]
  · rw [if_neg h, if_neg (by omega), if_neg (by omega), if_neg (by omega), if_neg (by omega)]

set_option maxRecDepth 2000 in
lemma lor_128 : ∀ a, a < 128 → Nat.lor 128 a = 128 + a := by decide

lemma length_encode_control_slice (ssse3 : Bool) (f : Frame) (buf mask : List Nat) :
    (f.encode_control_slice ssse3 buf mask).length = buf.length := by
  simp only [Frame.encode_control_slice]
  rw [length_copyMask4, List.length_set, List.length_set, length_mask_data]

/-- Pointwise description of `encode_control_slice` under its implicit
preconditions: buffer at least 6 bytes, payload (the first
`buf.length - 6` bytes) at most 125 bytes. -/
lemma encode_control_slice_getD (ssse3 : Bool) (f : Frame) (buf mask : List Nat)
    (h6 : 6 ≤ buf.length) (h125 : buf.length - 6 ≤ 125) (p : Nat) :
    (f.encode_control_slice ssse3 buf mask).getD p 0 =
      if p = 0 then headerByte0 f
      else if p = 1 then 128 + (buf.length - 6)
      else if p < 6 then mask.getD (p - 2) 0
      else if p < buf.length then Nat.xor (buf.getD (p - 6) 0) (mask.getD ((p - 6) % 4) 0)
      else 0 := by
  have h64 : (2 : Nat) ^ 64 = 18446744073709551616 := by norm_num
  have hdl : usizeSub buf.length 6 = buf.length - 6 := by
    simp only [usizeSub, h64]
    omega
  simp only [Frame.encode_control_slice, CONTROL_HEADER_LEN, MASK_BIT]
  rw [copyMask4_getD, getD_set, getD_set, mask_data_getD]
  simp only [List.length_set, length_mask_data, hdl]
  by_cases hp0 : p = 0
  · subst hp0
    rw [if_neg (by omega), if_neg (by omega), if_pos (by omega), if_pos rfl]
  · by_cases hp1 : p = 1
    · subst hp1
      rw [if_neg (by omega), if_pos (by omega), if_neg (by omega), if_pos rfl,
        Nat.mod_eq_of_lt (by omega), lor_128 _ (by omega)]
    · by_cases hp2 : p < 6
      · rw [if_pos (by omega), if_neg hp0, if_neg hp1, if_pos hp2]
      · by_cases hp6 : p < buf.length
        · rw [if_neg (by omega), if_neg (by omega), if_neg (by omega), if_pos (by omega)]
          simp only [maskedVal]
          rw [if_pos hp6, if_neg hp0, if_neg hp1, if_neg hp2]
        · rw [if_neg (by omega), if_neg (by omega), if_neg (by omega), if_neg (by omega),
            List.getD_eq_default _ _ (by omega), if_neg hp0, if_neg hp1, if_neg hp2,
            if_neg hp6]

lemma length_encode_vec (ssse3 : Bool) (f : Frame) (data mask : List Nat) :
    (f.encode_vec ssse3 data mask).length = data.length + headerLen data.length := by
  simp only [Frame.encode_vec]
  by_cases ha : data.length < 126
  · have hh : headerLen data.length = 6 := by simp [headerLen, ha]
    rw [hh, if_pos rfl, length_copyMask4, List.length_set, List.length_set, length_mask_data,
      List.length_append, List.length_replicate]
  · by_cases hb : data.length < 65536
    · have hh : headerLen data.length = 8 := by simp [headerLen, ha, hb]
      rw [hh, if_neg (by omega), if_pos rfl, length_copyMask4, List.length_set,
        List.length_set, List.length_set, List.length_set, length_mask_data,
        List.length_append, List.length_replicate]
    · have hh : headerLen data.length = 14 := by simp [headerLen, ha, hb]
      rw [hh, if_neg (by omega), if_neg (by omega), length_copyMask4, length_writeSeq,
        List.length_set, List.length_set, length_mask_data, List.length_append,
        List.length_replicate]

/-- Pointwise description of `encode_vec` in the 7-bit length regime. -/
lemma encode_vec_getD_small (ssse3 : Bool) (f : Frame) (data mask : List Nat)
    (h : data.length < 126) (p : Nat) :
    (f.encode_vec ssse3 data mask).getD p 0 =
      if p = 0 then headerByte0 f
      else if p = 1 then 128 + data.length
      else if p < 6 then mask.getD (p - 2) 0
      else if p < data.length + 6 then
        Nat.xor (data.getD (p - 6) 0) (mask.getD ((p - 6) % 4) 0)
      else 0 := by
  have hh : headerLen data.length = 6 := by simp [headerLen, h]
  simp only [Frame.encode_vec]
  rw [hh, if_pos rfl, copyMask4_getD, getD_set, getD_set, mask_data_getD]
  simp only [List.length_set, length_mask_data, List.length_append, List.length_replicate,
    MASK_BIT]
  by_cases hp0 : p = 0
  · subst hp0
    rw [if_neg (by omega), if_neg (by omega), if_pos (by omega), if_pos rfl]
  · by_cases hp1 : p = 1
    · subst hp1
      rw [if_neg (by omega), if_pos (by omega), if_neg (by omega), if_pos rfl,
        Nat.mod_eq_of_lt (by omega), lor_128 _ (by omega)]
    · by_cases hp2 : p < 6
      · rw [if_pos (by omega), if_neg hp0, if_neg hp1, if_pos hp2]
      · by_cases hp6 : p < data.length + 6
        · rw [if_neg (by omega), if_neg (by omega), if_neg (by omega), if_pos (by omega)]
          simp only [maskedVal, List.length_append, List.length_replicate]
          rw [if_pos hp6, List.getD_append _ _ _ _ (by omega), if_neg hp0, if_neg hp1,
            if_neg hp2, if_pos hp6]
        · rw [if_neg (by omega), if_neg (by omega), if_neg (by omega), if_neg (by omega),
            List.getD_eq_default _ _ (by rw [List.length_append, List.length_replicate]; omega),
            if_neg hp0, if_neg hp1, if_neg hp2, if_neg hp6]

/-- Pointwise description of `encode_vec` in the 16-bit length regime. -/
lemma encode_vec_getD_mid (ssse3 : Bool) (f : Frame) (data mask : List Nat)
    (h1 : 126 ≤ data.length) (h2 : data.length < 65536) (p : Nat) :
    (f.encode_vec ssse3 data mask).getD p 0 =
      if p = 0 then headerByte0 f
      else if p = 1 then 254
      else if p = 2 then data.length / 256
      else if p = 3 then data.length % 256
      else if p < 8 then mask.getD (p - 4) 0
      else if p < data.length + 8 then
        Nat.xor (data.getD (p - 8) 0) (mask.getD ((p - 8) % 4) 0)
      else 0 := by
  have h16 : (2 : Nat) ^ 16 = 65536 := by norm_num
  have hge : ¬ data.length < 126 := by omega
  have hh : headerLen data.length = 8 := by simp [headerLen, h2, hge]
  simp only [Frame.encode_vec]
  rw [hh, if_neg (by omega), if_pos rfl, copyMask4_getD, getD_set, getD_set, getD_set,
    getD_set, mask_data_getD]
  simp only [List.length_set, length_mask_data, List.length_append, List.length_replicate, h16,
    MASK_BIT]
  rw [Nat.mod_eq_of_lt h2]
  by_cases hp0 : p = 0
  · subst hp0
    rw [if_neg (by omega), if_neg (by omega), if_neg (by omega), if_neg (by omega),
      if_pos (by omega), if_pos rfl]
  · by_cases hp1 : p = 1
    · subst hp1
      rw [if_neg (by omega), if_neg (by omega), if_neg (by omega), if_pos (by omega),
        if_neg (by omega), if_pos rfl]
      decide
    · by_cases hp2 : p = 2
      · subst hp2
        rw [if_neg (by omega), if_neg (by omega), if_pos (by omega), if_neg (by omega),
          if_neg (by omega), if_pos rfl]
      · by_cases hp3 : p = 3
        · subst hp3
          rw [if_neg (by omega), if_pos (by omega), if_neg (by omega), if_neg (by omega),
            if_neg (by omega), if_pos rfl]
        · by_cases hp4 : p < 8
          · rw [if_pos (by omega), if_neg hp0, if_neg hp1, if_neg hp2, if_neg hp3,
              if_pos hp4]
          · by_cases hp8 : p < data.length + 8
            · rw [if_neg (by omega), if_neg (by omega), if_neg (by omega), if_neg (by omega),
                if_neg (by omega), if_pos (by omega)]
              simp only [maskedVal, List.length_append, List.length_replicate]
              rw [if_pos hp8, List.getD_append _ _ _ _ (by omega), if_neg hp0, if_neg hp1,
                if_neg hp2, if_neg hp3, if_neg hp4, if_pos hp8]
            · rw [if_neg (by omega), if_neg (by omega), if_neg (by omega), if_neg (by omega),
                if_neg (by omega), if_neg (by omega),
                List.getD_eq_default _ _
                  (by rw [List.length_append, List.length_replicate]; omega),
                if_neg hp0, if_neg hp1, if_neg hp2, if_neg hp3, if_neg hp4, if_neg hp8]

/-- Pointwise description of `encode_vec` in the 64-bit length regime
(for lengths below `2 ^ 63`, the `Vec` capacity bound of Rust). -/
lemma encode_vec_getD_large (ssse3 : Bool) (f : Frame) (data mask : List Nat)
    (h1 : 65536 ≤ data.length) (h63 : data.length < 2 ^ 63) (p : Nat) :
    (f.encode_vec ssse3 data mask).getD p 0 =
      if p = 0 then headerByte0 f
      else if p = 1 then 255
      else if p < 10 then data.length / 2 ^ (8 * (9 - p)) % 256
      else if p < 14 then mask.getD (p - 10) 0
      else if p < data.length + 14 then
        Nat.xor (data.getD (p - 14) 0) (mask.getD ((p - 14) % 4) 0)
      else 0 := by
  have hlt : data.length % 2 ^ 64 = data.length :=
    Nat.mod_eq_of_lt (lt_trans h63 (by norm_num))
  have hga : ¬ data.length < 126 := by omega
  have hgb : ¬ data.length < 65536 := by omega
  have hh : headerLen data.length = 14 := by simp [headerLen, hga, hgb]
  simp only [Frame.encode_vec]
  rw [hh, if_neg (by omega), if_neg (by omega), copyMask4_getD, writeSeq_getD, getD_set,
    getD_set, mask_data_getD]
  simp only [List.length_set, length_writeSeq, length_mask_data, List.length_append,
    List.length_replicate, List.length_map, List.length_range, MASK_BIT]
  by_cases hp0 : p = 0
  · subst hp0
    rw [if_neg (by omega), if_neg (by omega), if_neg (by omega), if_pos (by omega),
      if_pos rfl]
  · by_cases hp1 : p = 1
    · subst hp1
      rw [if_neg (by omega), if_neg (by omega), if_pos (by omega), if_neg (by omega),
        if_pos rfl]
      decide
    · by_cases hp2 : p < 10
      · rw [if_neg (by omega), if_pos (by omega), range_map_getD, if_pos (by omega),
          if_neg hp0, if_neg hp1, if_pos hp2]
        simp only [u64BeByte, hlt]
        have e : 7 - (p - 2) = 9 - p := by omega
        rw [e]
      · by_cases hpm : p < 14
        · rw [if_pos (by omega), if_neg hp0, if_neg hp1, if_neg hp2, if_pos hpm]
        · by_cases hp14 : p < data.length + 14
          · rw [if_neg (by omega), if_neg (by omega), if_neg (by omega), if_neg (by omega),
              if_pos (by omega)]
            simp only [maskedVal, List.length_append, List.length_replicate]
            rw [if_pos hp14, List.getD_append _ _ _ _ (by omega), if_neg hp0, if_neg hp1,
              if_neg hp2, if_neg hpm, if_pos hp14]
          · rw [if_neg (by omega), if_neg (by omega), if_neg (by omega), if_neg (by omega),
              if_neg (by omega),
              List.getD_eq_default _ _
                (by rw [List.length_append, List.length_replicate]; omega),
              if_neg hp0, if_neg hp1, if_neg hp2, if_neg hpm, if_neg hp14]

lemma xor_cancel_right (a b : Nat) : Nat.xor (Nat.xor a b) b = a := by
  show (a ^^^ b) ^^^ b = a
  rw [Nat.xor_assoc, Nat.xor_self, Nat.xor_zero]

/-! ## Claim theorems -/

/-- C1, counterexample: the claim places the control payload at offset 6 of
the buffer, but `encode_control_slice` reads the payload from offset 0.
With payload `[1]` stored at offset 6 of the 7-byte buffer
`[0,0,0,0,0,0,1]` (as the claim prescribes) and the zero mask, the claim
requires `byte[6] = payload[0] XOR mask[0] = 1`; the code produces `0`. -/
theorem C1_payload_offset_counterexample :
    ¬ (((Frame.mk true .binary).encode_control_slice false [0, 0, 0, 0, 0, 0, 1]
        [0, 0, 0, 0]).getD 6 0 = 1) := by
  decide

/-- C1, amended: for every control payload of length `L ≤ 125` occupying the
FIRST `L` bytes of a buffer of length `L + 6` (the 6 trailing bytes being
reserved header space), and every 4-byte mask, `encode_control_slice`
leaves `byte[0] = (fin << 7) | opcode`, `byte[1] = 0x80 | L = 128 + L`,
`bytes[2..6] = mask`, and `byte[6+i] = payload[i] XOR mask[i mod 4]` for
every `i < L`. -/
theorem C1_encode_control_slice_layout (ssse3 : Bool) (f : Frame) (buf : List Nat)
    (m0 m1 m2 m3 : Nat) (h6 : 6 ≤ buf.length) (h125 : buf.length - 6 ≤ 125) :
    (f.encode_control_slice ssse3 buf [m0, m1, m2, m3]).getD 0 0 =
        Nat.lor (Nat.shiftLeft (if f.fin then 1 else 0) 7) f.opcode.toNat ∧
    (f.encode_control_slice ssse3 buf [m0, m1, m2, m3]).getD 1 0 =
        128 + (buf.length - 6) ∧
    (∀ k, k < 4 →
      (f.encode_control_slice ssse3 buf [m0, m1, m2, m3]).getD (2 + k) 0 =
        [m0, m1, m2, m3].getD k 0) ∧
    (∀ i, i < buf.length - 6 →
      (f.encode_control_slice ssse3 buf [m0, m1, m2, m3]).getD (6 + i) 0 =
        Nat.xor (buf.getD i 0) ([m0, m1, m2, m3].getD (i % 4) 0)) := by
  refine ⟨?_, ?_, ?_, ?_⟩
  · rw [encode_control_slice_getD ssse3 f buf _ h6 h125, if_pos rfl]
    rfl
  · rw [encode_control_slice_getD ssse3 f buf _ h6 h125, if_neg (by omega), if_pos rfl]
  · intro k hk
    rw [encode_control_slice_getD ssse3 f buf _ h6 h125, if_neg (by omega),
      if_neg (by omega), if_pos (by omega)]
    have e : 2 + k - 2 = k := by omega
    rw [e]
  · intro i hi
    rw [encode_control_slice_getD ssse3 f buf _ h6 h125, if_neg (by omega),
      if_neg (by omega), if_neg (by omega), if_pos (by omega)]
    have e : 6 + i - 6 = i := by omega
    rw [e]

theorem C1_encode_control_slice_layout_witness :
    (6 ≤ ([5, 7, 0, 0, 0, 0, 0, 0] : List Nat).length ∧
      ([5, 7, 0, 0, 0, 0, 0, 0] : List Nat).length - 6 ≤ 125) ∧
    ((Frame.mk true .binary).encode_control_slice false [5, 7, 0, 0, 0, 0, 0, 0]
        [1, 2, 3, 4]).getD (6 + 1) 0 =
      Nat.xor (([5, 7, 0, 0, 0, 0, 0, 0] : List Nat).getD 1 0)
        ([1, 2, 3, 4].getD (1 % 4) 0) :=
  ⟨⟨by decide, by decide⟩,
    (C1_encode_control_slice_layout false ⟨true, .binary⟩ [5, 7, 0, 0, 0, 0, 0, 0]
        1 2 3 4 (by decide) (by decide)).2.2.2 1 (by decide)⟩

/-- C3: the in-place mask operation writes
`dst[H + i] = src[i] XOR mask[i mod 4]` for every `i < len`, where `src[i]`
is the byte at index `i` before the call; processing indices in reverse
makes the overlapping in-place shift produce exactly this result. -/
theorem C3_mask_into_writes (ssse3 : Bool) (H : Nat) (buf : List Nat) (len : Nat)
    (m0 m1 m2 m3 i : Nat) (hbuf : len + H ≤ buf.length) (hi : i < len) :
    (mask_data ssse3 H buf len [m0, m1, m2, m3]).getD (H + i) 0 =
      Nat.xor (buf.getD i 0) ([m0, m1, m2, m3].getD (i % 4) 0) := by
  rw [mask_data_getD, if_pos (by omega)]
  simp only [maskedVal]
  rw [if_pos (by omega)]
  have e : H + i - H = i := by omega
  rw [e]

theorem C3_mask_into_writes_witness :
    (2 + 6 ≤ ([7, 9, 0, 0, 0, 0, 0, 0] : List Nat).length ∧ 1 < 2) ∧
    (mask_data false 6 [7, 9, 0, 0, 0, 0, 0, 0] 2 [1, 2, 3, 4]).getD (6 + 1) 0 =
      Nat.xor (([7, 9, 0, 0, 0, 0, 0, 0] : List Nat).getD 1 0)
        ([1, 2, 3, 4].getD (1 % 4) 0) :=
  ⟨⟨by decide, by decide⟩,
    C3_mask_into_writes false 6 [7, 9, 0, 0, 0, 0, 0, 0] 2 1 2 3 4 1
      (by decide) (by decide)⟩

/-- C4: for every input byte sequence, every length, every header length and
every 4-byte mask, the scalar masking back-end and the SIMD masking
back-end produce byte-identical buffer contents. -/
theorem C4_masker_equivalence (H : Nat) (buf : List Nat) (len : Nat)
    (m0 m1 m2 m3 : Nat) :
    mask_simd_x86 H buf len [m0, m1, m2, m3] = mask_scalar H buf len [m0, m1, m2, m3] :=
  mask_simd_eq_mask_scalar H buf len [m0, m1, m2, m3]

/-- C2: `encode_vec` prepends a header of exactly 6, 8 or 14 bytes; the
length form is minimal (7-bit iff `L < 126`, 16-bit iff `126 ≤ L < 65536`,
64-bit otherwise); the length bytes are `0x80 | L`, or marker 126 plus the
big-endian `u16`, or marker 127 plus the big-endian `u64` with top bit
zero.  The hypothesis `L < 2 ^ 63` is Rust's `Vec` capacity bound
(`isize::MAX`). -/
theorem C2_encode_vec_header_forms (ssse3 : Bool) (f : Frame) (data : List Nat)
    (m0 m1 m2 m3 : Nat) (h63 : data.length < 2 ^ 63) :
    (f.encode_vec ssse3 data [m0, m1, m2, m3]).length
        = data.length + headerLen data.length ∧
    (headerLen data.length = 6 ↔ data.length < 126) ∧
    (headerLen data.length = 8 ↔ 126 ≤ data.length ∧ data.length < 65536) ∧
    (headerLen data.length = 14 ↔ 65536 ≤ data.length) ∧
    (f.encode_vec ssse3 data [m0, m1, m2, m3]).getD 1 0 =
      (if data.length < 126 then 128 + data.length
       else if data.length < 65536 then 254 else 255) ∧
    (126 ≤ data.length → data.length < 65536 →
      (f.encode_vec ssse3 data [m0, m1, m2, m3]).getD 2 0 = data.length / 256 ∧
      (f.encode_vec ssse3 data [m0, m1, m2, m3]).getD 3 0 = data.length % 256) ∧
    (65536 ≤ data.length →
      (∀ k, k < 8 →
        (f.encode_vec ssse3 data [m0, m1, m2, m3]).getD (2 + k) 0 =
          data.length / 2 ^ (8 * (7 - k)) % 256) ∧
      (f.encode_vec ssse3 data [m0, m1, m2, m3]).getD 2 0 < 128) := by
  refine ⟨length_encode_vec ssse3 f data _, ?_, ?_, ?_, ?_, ?_, ?_⟩
  · unfold headerLen
    split_ifs <;> omega
  · unfold headerLen
    split_ifs <;> omega
  · unfold headerLen
    split_ifs <;> omega
  · by_cases ha : data.length < 126
    · rw [encode_vec_getD_small ssse3 f data _ ha, if_neg (by omega), if_pos rfl,
        if_pos ha]
    · by_cases hb : data.length < 65536
      · rw [encode_vec_getD_mid ssse3 f data _ (by omega) hb, if_neg (by omega),
          if_pos rfl, if_neg ha, if_pos hb]
      · rw [encode_vec_getD_large ssse3 f data _ (by omega) h63, if_neg (by omega),
          if_pos rfl, if_neg ha, if_neg hb]
  · intro hge hlt
    constructor
    · rw [encode_vec_getD_mid ssse3 f data _ hge hlt, if_neg (by omega),
        if_neg (by omega), if_pos rfl]
    · rw [encode_vec_getD_mid ssse3 f data _ hge hlt, if_neg (by omega),
        if_neg (by omega), if_neg (by omega), if_pos rfl]
  · intro hge
    constructor
    · intro k hk
      rw [encode_vec_getD_large ssse3 f data _ hge h63, if_neg (by omega),
        if_neg (by omega), if_pos (by omega)]
      have e : 9 - (2 + k) = 7 - k := by omega
      rw [e]
    · rw [encode_vec_getD_large ssse3 f data _ hge h63, if_neg (by omega),
        if_neg (by omega), if_pos (by omega)]
      have hdiv : data.length / 2 ^ (8 * (9 - 2)) < 128 := by
        apply Nat.div_lt_of_lt_mul
        calc data.length < 2 ^ 63 := h63
        _ = 128 * 2 ^ (8 * (9 - 2)) := by norm_num
      calc data.length / 2 ^ (8 * (9 - 2)) % 256
          ≤ data.length / 2 ^ (8 * (9 - 2)) := Nat.mod_le _ _
        _ < 128 := hdiv

theorem C2_encode_vec_header_forms_witness :
    (List.replicate 65536 (0 : Nat)).length < 2 ^ 63 ∧
    ((Frame.mk true .binary).encode_vec false (List.replicate 65536 (0 : Nat))
        [1, 2, 3, 4]).getD 2 0 < 128 ∧
    ((Frame.mk true .binary).encode_vec false (List.replicate 65536 (0 : Nat))
        [1, 2, 3, 4]).length
      = (List.replicate 65536 (0 : Nat)).length
          + headerLen (List.replicate 65536 (0 : Nat)).length := by
  have hlen : (List.replicate 65536 (0 : Nat)).length < 2 ^ 63 := by
    rw [List.length_replicate]
    decide
  have hge : 65536 ≤ (List.replicate 65536 (0 : Nat)).length := by
    rw [List.length_replicate]
  exact ⟨hlen,
    ((C2_encode_vec_header_forms false ⟨true, .binary⟩ _ 1 2 3 4 hlen).2.2.2.2.2.2 hge).2,
    (C2_encode_vec_header_forms false ⟨true, .binary⟩ _ 1 2 3 4 hlen).1⟩

/-- C9: masking is an involution on the payload: for every payload, mask and
frame, XORing output byte `headerLen + i` of `encode_vec` with
`mask[i mod 4]` recovers payload byte `i`. -/
theorem C9_masking_involution (ssse3 : Bool) (f : Frame) (data : List Nat)
    (m0 m1 m2 m3 i : Nat) (hi : i < data.length) (h63 : data.length < 2 ^ 63) :
    Nat.xor
      ((f.encode_vec ssse3 data [m0, m1, m2, m3]).getD (headerLen data.length + i) 0)
      ([m0, m1, m2, m3].getD (i % 4) 0) = data.getD i 0 := by
  have key : (f.encode_vec ssse3 data [m0, m1, m2, m3]).getD (headerLen data.length + i) 0
      = Nat.xor (data.getD i 0) ([m0, m1, m2, m3].getD (i % 4) 0) := by
    by_cases ha : data.length < 126
    · have hh : headerLen data.length = 6 := by simp [headerLen, ha]
      rw [hh, encode_vec_getD_small ssse3 f data _ ha, if_neg (by omega),
        if_neg (by omega), if_neg (by omega), if_pos (by omega)]
      have e : 6 + i - 6 = i := by omega
      rw [e]
    · by_cases hb : data.length < 65536
      · have hh : headerLen data.length = 8 := by simp [headerLen, ha, hb]
        rw [hh, encode_vec_getD_mid ssse3 f data _ (by omega) hb, if_neg (by omega),
          if_neg (by omega), if_neg (by omega), if_neg (by omega), if_neg (by omega),
          if_pos (by omega)]
        have e : 8 + i - 8 = i := by omega
        rw [e]
      · have hh : headerLen data.length = 14 := by simp [headerLen, ha, hb]
        rw [hh, encode_vec_getD_large ssse3 f data _ (by omega) h63, if_neg (by omega),
          if_neg (by omega), if_neg (by omega), if_neg (by omega), if_pos (by omega)]
        have e : 14 + i - 14 = i := by omega
        rw [e]
  rw [key, xor_cancel_right]

theorem C9_masking_involution_witness :
    (1 < ([1, 2, 3] : List Nat).length ∧ ([1, 2, 3] : List Nat).length < 2 ^ 63) ∧
    Nat.xor
      (((Frame.mk true .text).encode_vec false [1, 2, 3] [9, 8, 7, 6]).getD
        (headerLen ([1, 2, 3] : List Nat).length + 1) 0)
      ([9, 8, 7, 6].getD (1 % 4) 0) = ([1, 2, 3] : List Nat).getD 1 0 :=
  ⟨⟨by decide, by decide⟩,
    C9_masking_involution false ⟨true, .text⟩ [1, 2, 3] 9 8 7 6 1 (by decide) (by decide)⟩

set_option maxRecDepth 100000 in
/-- C5: concrete encodings of a `{fin: 1, opcode: Binary}` frame with mask
`[0x0a, 0xf1, 0x22, 0x33]`: the empty payload (S1), the `"hello"` payload
(S2), and the 126-byte Lorem-ipsum payload (S3, 16-bit length form), for
both masking back-ends. -/
theorem C5_concrete_vectors (ssse3 : Bool) :
    (Frame.mk true .binary).encode_vec ssse3 [] [10, 241, 34, 51] =
        [130, 128, 10, 241, 34, 51] ∧
    (Frame.mk true .binary).encode_vec ssse3 [0x68, 0x65, 0x6C, 0x6C, 0x6F]
        [10, 241, 34, 51] = [130, 133, 10, 241, 34, 51, 98, 148, 78, 95, 101] ∧
    (Frame.mk true .binary).encode_vec ssse3 loremPayload [10, 241, 34, 51] =
      [130, 254, 0, 126] ++ [10, 241, 34, 51] ++
        (List.range 126).map (fun i =>
          Nat.xor (loremPayload.getD i 0) ([10, 241, 34, 51].getD (i % 4) 0)) := by
  cases ssse3
  · exact ⟨by decide, by decide, by decide⟩
  · exact ⟨by decide, by decide, by decide⟩

set_option maxRecDepth 100000 in
/-- C6: the handshake request has the fixed shape with CRLF-terminated
fields; the port is appended to the `Host` field exactly when the URI
carries one; the concrete URI and key of S4 produce the literal request
block of spec section 4.D. -/
theorem C6_http_request_format :
    http_request ⟨some "localhost", some 9001, some "/runCase?case=1&agent=monoio-ws"⟩
        "dGhlIHNhbXBsZSBub25jZQ==" =
      "GET /runCase?case=1&agent=monoio-ws HTTP/1.1\r\nHost: localhost:9001\r\nUpgrade: websocket\r\nConnection: Upgrade\r\nSec-WebSocket-Key: dGhlIHNhbXBsZSBub25jZQ==\r\nSec-WebSocket-Version: 13\r\n\r\n" ∧
    (∀ (h p key : String),
      http_request ⟨some h, none, some p⟩ key =
        "GET " ++ p ++ " HTTP/1.1\r\nHost: " ++ h ++
          "\r\nUpgrade: websocket\r\nConnection: Upgrade\r\nSec-WebSocket-Key: " ++ key ++
          "\r\nSec-WebSocket-Version: 13\r\n\r\n") ∧
    (∀ (h p key : String) (port : Nat),
      http_request ⟨some h, some port, some p⟩ key =
        "GET " ++ p ++ " HTTP/1.1\r\nHost: " ++ (h ++ ":" ++ toString port) ++
          "\r\nUpgrade: websocket\r\nConnection: Upgrade\r\nSec-WebSocket-Key: " ++ key ++
          "\r\nSec-WebSocket-Version: 13\r\n\r\n") :=
  ⟨by decide, fun h p key => rfl, fun h p key port => rfl⟩

set_option maxRecDepth 100000 in
/-- C7: the expected accept value is `base64(SHA1(key || GUID))` — in
particular the sample key yields `s3pPLMBiTxaQ9kYGzzhZRbK+xOo=` — and,
once the status line has passed, the handshake fails with
`InvalidWebSocketAcceptHeader` exactly when the response does not contain
(case-insensitively) `Sec-WebSocket-Accept: <expected>`. -/
theorem C7_accept_key_check :
    expected_accept "dGhlIHNhbXBsZSBub25jZQ==" = "s3pPLMBiTxaQ9kYGzzhZRbK+xOo=" ∧
    ∀ (response key : String), statusOk response = true →
      (handshake_verify response key = .invalidWebSocketAcceptHeader ↔
        acceptOk response key = false) := by
  refine ⟨by decide, ?_⟩
  intro response key h
  rw [handshake_verify, if_neg (by simp [h])]
  by_cases ha : acceptOk response key = false
  · rw [if_pos ha]
    exact ⟨fun _ => ha, fun _ => rfl⟩
  · rw [if_neg ha]
    exact ⟨fun hc => HandshakeCheck.noConfusion hc, fun hc => absurd hc ha⟩

set_option maxRecDepth 100000 in
theorem C7_accept_key_check_witness :
    statusOk "HTTP/1.1 101 Switching Protocols\r\nUpgrade: websocket\r\nSec-WebSocket-Accept: s3pPLMBiTxaQ9kYGzzhZRbK+xOo=\r\n\r\n" = true ∧
    (handshake_verify
        "HTTP/1.1 101 Switching Protocols\r\nUpgrade: websocket\r\nSec-WebSocket-Accept: s3pPLMBiTxaQ9kYGzzhZRbK+xOo=\r\n\r\n"
        "dGhlIHNhbXBsZSBub25jZQ==" = .invalidWebSocketAcceptHeader ↔
      acceptOk
        "HTTP/1.1 101 Switching Protocols\r\nUpgrade: websocket\r\nSec-WebSocket-Accept: s3pPLMBiTxaQ9kYGzzhZRbK+xOo=\r\n\r\n"
        "dGhlIHNhbXBsZSBub25jZQ==" = false) :=
  ⟨by decide, C7_accept_key_check.2 _ _ (by decide)⟩

/-- C8: a collected response that does not start with `HTTP/1.1 101` makes
the handshake fail with `InvalidHandshakeResponse` carrying the raw
response, without the accept check being reached; a response that does
start with it never raises this error. -/
theorem C8_status_line_check (response key : String) :
    (statusOk response = false →
      handshake_verify response key = .invalidHandshakeResponse response) ∧
    (statusOk response = true →
      ∀ raw, handshake_verify response key ≠ .invalidHandshakeResponse raw) := by
  constructor
  · intro h
    rw [handshake_verify, if_pos h]
  · intro h raw
    rw [handshake_verify, if_neg (by simp [h])]
    by_cases ha : acceptOk response key = false
    · rw [if_pos ha]
      exact fun hc => HandshakeCheck.noConfusion hc
    · rw [if_neg ha]
      exact fun hc => HandshakeCheck.noConfusion hc

theorem C8_status_line_check_witness :
    statusOk "HTTP/1.0 200 OK\r\n\r\n" = false ∧
    handshake_verify "HTTP/1.0 200 OK\r\n\r\n" "anykey" =
      .invalidHandshakeResponse "HTTP/1.0 200 OK\r\n\r\n" :=
  ⟨by decide, (C8_status_line_check "HTTP/1.0 200 OK\r\n\r\n" "anykey").1 (by decide)⟩

lemma readB_some (buf : List Nat) (i : Nat) (h : i < buf.length) :
    readB buf i = some (buf.getD i 0) := by
  rw [readB, List.getElem?_eq_getElem h, List.getD_eq_getElem _ _ h]

lemma readB_none (buf : List Nat) (i : Nat) (h : buf.length ≤ i) :
    readB buf i = none := List.getElem?_eq_none h

lemma writeB_some (buf : List Nat) (i v : Nat) (h : i < buf.length) :
    writeB buf i v = some (buf.set i v) := by
  rw [writeB, if_pos h]

/-- When every access stays in bounds, the bounds-checked masking loop
computes the total masking loop. -/
lemma maskRevLoopB_eq_some (H : Nat) (mask : List Nat) (hm : mask.length = 4) (k : Nat) :
    ∀ (buf : List Nat) (lo : Nat), lo + k + H ≤ buf.length →
      maskRevLoopB H mask buf lo k = some (maskRevLoop H mask buf lo k) := by
  induction k with
  | zero => intro buf lo h; rfl
  | succ k ih =>
    intro buf lo h
    simp only [maskRevLoopB, maskRevLoop]
    rw [readB_some _ _ (by omega)]
    simp only [Option.some_bind]
    rw [readB_some _ _ (by rw [hm]; omega)]
    simp only [Option.some_bind]
    rw [writeB_some _ _ _ (by omega)]
    simp only [Option.some_bind, maskStep]
    exact ih _ lo (by rw [List.length_set]; omega)

/-- The second header byte of `encode_control_slice` for any buffer of
length at least 6 (no bound on the payload length). -/
lemma encode_control_slice_byte1 (ssse3 : Bool) (f : Frame) (buf mask : List Nat)
    (h6 : 6 ≤ buf.length) (hsz : buf.length < 2 ^ 64) :
    (f.encode_control_slice ssse3 buf mask).getD 1 0 =
      Nat.lor 128 ((buf.length - 6) % 256) := by
  have h64 : (2 : Nat) ^ 64 = 18446744073709551616 := by norm_num
  have hdl : usizeSub buf.length 6 = buf.length - 6 := by
    simp only [usizeSub, h64]
    omega
  simp only [Frame.encode_control_slice, CONTROL_HEADER_LEN, MASK_BIT]
  rw [copyMask4_getD, getD_set, getD_set]
  simp only [List.length_set, length_mask_data, hdl]
  rw [if_neg (by omega), if_pos (⟨trivial, by omega⟩ : True ∧ 1 < buf.length)]

set_option maxRecDepth 2000 in
lemma land_lor_128_127 : ∀ a, a < 256 → Nat.land (Nat.lor 128 a) 127 = a % 128 := by
  decide

/-- A buffer shorter than the 6 reserved header bytes makes the wrapped
payload length astronomically large and the very first masking access out
of bounds. -/
lemma encode_control_sliceB_underflow (f : Frame) (buf mask : List Nat)
    (h : buf.length < 6) :
    f.encode_control_sliceB buf mask = none := by
  have h64 : (2 : Nat) ^ 64 = 18446744073709551616 := by norm_num
  have hbig : 18446744073709551610 ≤ usizeSub buf.length 6 ∧
      usizeSub buf.length 6 < 18446744073709551616 := by
    simp only [usizeSub, h64]
    omega
  obtain ⟨d, hd⟩ : ∃ d, usizeSub buf.length 6 = d + 1 :=
    ⟨usizeSub buf.length 6 - 1, by omega⟩
  simp only [Frame.encode_control_sliceB, CONTROL_HEADER_LEN]
  rw [hd]
  simp only [maskRevLoopB]
  rw [readB_none _ _ (by omega)]
  simp only [Option.none_bind]

/-- C10: `encode_control_slice` validates nothing.  Under the implicit
preconditions (buffer length at least 6, payload at most 125 bytes) every
read and write of the unsafe implementation is within the buffer and the
function totally computes the encoding; for a buffer shorter than 6 bytes
the `usize` payload-length subtraction underflows (wraps) and the code
immediately accesses out of bounds; for a payload longer than 125 bytes
the length byte `0x80 | L` no longer encodes `L` as a 7-bit control
length. -/
theorem C10_encode_control_slice_safety (f : Frame) (buf : List Nat)
    (m0 m1 m2 m3 : Nat) (hsz : buf.length < 2 ^ 64) :
    (6 ≤ buf.length → buf.length - 6 ≤ 125 →
      f.encode_control_sliceB buf [m0, m1, m2, m3]
        = some (f.encode_control_slice false buf [m0, m1, m2, m3])) ∧
    (buf.length < 6 → f.encode_control_sliceB buf [m0, m1, m2, m3] = none) ∧
    (126 ≤ buf.length - 6 →
      len7Field ((f.encode_control_slice false buf [m0, m1, m2, m3]).getD 1 0)
        ≠ some (buf.length - 6)) := by
  refine ⟨?_, fun h => encode_control_sliceB_underflow f buf _ h, ?_⟩
  · intro h6 h125
    have h64 : (2 : Nat) ^ 64 = 18446744073709551616 := by norm_num
    have hdl : usizeSub buf.length 6 = buf.length - 6 := by
      simp only [usizeSub, h64]
      omega
    simp only [Frame.encode_control_sliceB, Frame.encode_control_slice,
      CONTROL_HEADER_LEN, hdl]
    rw [maskRevLoopB_eq_some 6 [m0, m1, m2, m3] rfl (buf.length - 6) buf 0 (by omega)]
    simp only [Option.some_bind]
    rw [writeB_some _ _ _ (by rw [length_maskRevLoop]; omega)]
    simp only [Option.some_bind]
    rw [writeB_some _ _ _ (by rw [List.length_set, length_maskRevLoop]; omega)]
    simp only [Option.some_bind]
    rw [show readB [m0, m1, m2, m3] 0 = some m0 from rfl]
    simp only [Option.some_bind]
    rw [show readB [m0, m1, m2, m3] 1 = some m1 from rfl]
    simp only [Option.some_bind]
    rw [show readB [m0, m1, m2, m3] 2 = some m2 from rfl]
    simp only [Option.some_bind]
    rw [show readB [m0, m1, m2, m3] 3 = some m3 from rfl]
    simp only [Option.some_bind]
    rw [writeB_some _ _ _ (by simp only [List.length_set, length_maskRevLoop]; omega)]
    simp only [Option.some_bind]
    rw [writeB_some _ _ _ (by simp only [List.length_set, length_maskRevLoop]; omega)]
    simp only [Option.some_bind]
    rw [writeB_some _ _ _ (by simp only [List.length_set, length_maskRevLoop]; omega)]
    simp only [Option.some_bind]
    rw [writeB_some _ _ _ (by simp only [List.length_set, length_maskRevLoop]; omega)]
    simp only [copyMask4, mask_data_eq_mask_scalar, mask_scalar,
      List.getD_cons_zero, List.getD_cons_succ]
  · intro hge
    rw [encode_control_slice_byte1 false f buf [m0, m1, m2, m3] (by omega) hsz]
    simp only [len7Field]
    rw [land_lor_128_127 ((buf.length - 6) % 256) (by omega)]
    by_cases h3 : (buf.length - 6) % 256 % 128 < 126
    · rw [if_pos h3]
      intro hc
      have := Option.some.inj hc
      omega
    · rw [if_neg h3]
      intro hc
      exact Option.noConfusion hc

theorem C10_encode_control_slice_safety_witness :
    ([9, 9, 0, 0, 0, 0, 0, 0] : List Nat).length < 2 ^ 64 ∧
    (Frame.mk true .ping).encode_control_sliceB [9, 9, 0, 0, 0, 0, 0, 0] [1, 2, 3, 4]
      = some ((Frame.mk true .ping).encode_control_slice false [9, 9, 0, 0, 0, 0, 0, 0]
          [1, 2, 3, 4]) :=
  ⟨by decide,
    (C10_encode_control_slice_safety ⟨true, .ping⟩ [9, 9, 0, 0, 0, 0, 0, 0] 1 2 3 4
        (by decide)).1 (by decide) (by decide)⟩

end MonoioWs
